import Mathlib

/-!
Verification of the grouped rolling-statistics anomaly detector of
`app.py` (`calculate_alerts` and its inner `rolling_alerts`).

The embedding models the pandas pipeline over lists:

* a `Record` is one row of the input table (week number, care unit `UF`,
  and the `Vancomycine` / `Teicoplanine` outcomes);
* `groupby([week, UF]).size()` becomes a sorted list of distinct keys
  paired with occurrence counts;
* `pd.merge(..., how = left)` becomes a lookup of the tested totals from
  the phenotype-count rows;
* `rolling(window, center = True)` (default `min_periods = window`,
  `std` with `ddof = 1`) is modelled index by index: the window at
  position `i` is the slice `[i + 1 + (w-1)/2 - w, i + 1 + (w-1)/2)`
  clipped to the series, and a statistic is defined only when the
  window holds at least `w` non-null observations;
* floats are modelled by `ℚ` (exact arithmetic); a pandas `NaN` cell is
  `Option.none`.  All `NaN` comparisons are false, which the `alertAt`
  definition reproduces.

`sort_values` is a sort by the `(UF, week)` columns; since every merged
row carries a distinct `(UF, week)` key, every sort agreeing with that
order produces the same list, and we use Mathlib's executable
`List.insertionSort`.

The source computes `lower_bound / upper_bound` with a square root
(`moving_std / sqrt(window_size)`).  To keep the embedding executable we
store the squared quantity `moving_var = moving_std ^ 2` and define the
alert flag by the equivalent square-root-free comparison; theorem
`C4_bounds_formula` proves (over `ℝ`) that this is exactly the source's
`percent < moving_avg - z * (std / sqrt w) or percent > moving_avg + z *
(std / sqrt w)` test.
-/

namespace Entero

/-- Outcome of one antibiotic test in a record: the source only ever
distinguishes the cell values `'R'`, `'S'` and everything else
(missing / untested / other strings), so one `other` constructor
captures all remaining cell contents. -/
inductive Outcome where
  | R : Outcome
  | S : Outcome
  | other : Outcome
deriving DecidableEq, Repr

/-- One row of the input table (one isolate): `Numéro semaine`, `UF`,
`Vancomycine`, `Teicoplanine`.  Care-unit labels are modelled by
natural numbers; only equality and ordering of labels matter. -/
structure Record where
  week : Nat
  uf : Nat
  vanco : Outcome
  teico : Outcome
deriving DecidableEq, Repr

/-- `df[df['Vancomycine'] == 'R']` (ERV phenotype filter). -/
def isPhenoERV (r : Record) : Bool := r.vanco == Outcome.R

/-- `df[(df['Vancomycine'] == 'S') & (df['Teicoplanine'] == 'S')]` (Wild phenotype filter). -/
def isPhenoWild (r : Record) : Bool := r.vanco == Outcome.S && r.teico == Outcome.S

/-- `df[df['Vancomycine'].isin(['R', 'S'])]` (ERV denominator filter). -/
def isTestedERV (r : Record) : Bool := r.vanco == Outcome.R || r.vanco == Outcome.S

/-- `df[(df['Vancomycine'].isin(['R','S'])) & (df['Teicoplanine'].isin(['R','S']))]`
(Wild denominator filter). -/
def isTestedWild (r : Record) : Bool :=
  (r.vanco == Outcome.R || r.vanco == Outcome.S) &&
    (r.teico == Outcome.R || r.teico == Outcome.S)

/-- The `(Numéro semaine, UF)` grouping key of a record. -/
def recKey (r : Record) : Nat × Nat := (r.week, r.uf)

/-- Lexicographic order on `(week, UF)` keys: the sorted key order of
`groupby(['Numéro semaine', 'UF'])`. -/
def keyLe (a b : Nat × Nat) : Prop := a.1 < b.1 ∨ (a.1 = b.1 ∧ a.2 ≤ b.2)

instance : DecidableRel keyLe := fun a b =>
  inferInstanceAs (Decidable (a.1 < b.1 ∨ (a.1 = b.1 ∧ a.2 ≤ b.2)))

instance : IsTotal (Nat × Nat) keyLe :=
  ⟨fun a b => by unfold keyLe; omega⟩

instance : IsTrans (Nat × Nat) keyLe :=
  ⟨fun a b c hab hbc => by unfold keyLe at *; omega⟩

/-- Number of records of `rs` carrying the key `k`: the group size that
`groupby.size()` reports for key `k`. -/
def countKey (rs : List Record) (k : Nat × Nat) : Nat :=
  rs.countP (fun r => recKey r == k)

/-- The sorted list of distinct `(week, UF)` keys occurring in `rs`: the
index of `groupby(['Numéro semaine', 'UF']).size()`. -/
def groupKeys (rs : List Record) : List (Nat × Nat) :=
  List.insertionSort keyLe (rs.map recKey).dedup

/-- `groupby(['Numéro semaine', 'UF']).size().reset_index(...)`: one
`(key, count)` pair per distinct key, in sorted key order. -/
def groupSize (rs : List Record) : List ((Nat × Nat) × Nat) :=
  (groupKeys rs).map (fun k => (k, countKey rs k))

/-- Key lookup in a count table: the effect of a left merge on the key
columns (`none` models the `NaN` a left merge leaves on unmatched rows). -/
def lookupCount (tbl : List ((Nat × Nat) × Nat)) (k : Nat × Nat) : Option Nat :=
  (tbl.find? (fun e => e.1 == k)).map (fun e => e.2)

/-- One row of `df_merged`: the phenotype count `nb`, the left-merged
total `total` (`none` = `NaN`), and the percentage column
(`nb / total * 100`, `none` when `total` is `NaN`). -/
structure MergedRow where
  week : Nat
  uf : Nat
  nb : Nat
  total : Option Nat
  percent : Option ℚ
deriving DecidableEq, Repr

instance : Inhabited MergedRow :=
  ⟨{ week := 0, uf := 0, nb := 0, total := none, percent := none }⟩

/-- `pd.merge(pheno_counts, total_tested, on=[week, UF], how='left')`
followed by the percentage column: one output row per `pheno_counts`
row, total attached by key lookup. -/
def mergedRows (rs : List Record) (pheno tested : Record → Bool) : List MergedRow :=
  (groupSize (rs.filter pheno)).map (fun e =>
    let t := lookupCount (groupSize (rs.filter tested)) e.1
    { week := e.1.1, uf := e.1.2, nb := e.2, total := t,
      percent := t.map (fun tt => (e.2 : ℚ) / (tt : ℚ) * 100) })

/-- The merged row that `mergedRows` produces for a key `k`: phenotype
count, left-merged total and percentage.  (`mergedRows` is the map of
this function over the sorted phenotype keys; see `mergedRows_eq_map`.) -/
def mergedRowFor (rs : List Record) (pheno tested : Record → Bool) (k : Nat × Nat) :
    MergedRow :=
  let t := lookupCount (groupSize (rs.filter tested)) k
  { week := k.1, uf := k.2, nb := countKey (rs.filter pheno) k, total := t,
    percent := t.map (fun tt => (countKey (rs.filter pheno) k : ℚ) / (tt : ℚ) * 100) }

/-- Row order of `df_merged.sort_values(['UF', 'Numéro semaine'])`. -/
def rowLe (a b : MergedRow) : Prop := a.uf < b.uf ∨ (a.uf = b.uf ∧ a.week ≤ b.week)

instance : DecidableRel rowLe := fun a b =>
  inferInstanceAs (Decidable (a.uf < b.uf ∨ (a.uf = b.uf ∧ a.week ≤ b.week)))

instance : IsTotal MergedRow rowLe :=
  ⟨fun a b => by unfold rowLe; omega⟩

instance : IsTrans MergedRow rowLe :=
  ⟨fun a b c hab hbc => by unfold rowLe at *; omega⟩

/-- Strict version of `rowLe`: used to state that a key-distinct sorted
merged table is uniquely determined. -/
def rowLt (a b : MergedRow) : Prop := a.uf < b.uf ∨ (a.uf = b.uf ∧ a.week < b.week)

instance : IsAntisymm MergedRow rowLt :=
  ⟨fun a b h1 h2 => by
    exfalso
    unfold rowLt at h1 h2
    omega⟩

/-- `df_merged.sort_values(['UF', 'Numéro semaine'])`.  The merged rows
carry pairwise distinct `(UF, week)` keys, so every sort by those
columns returns this list. -/
def sortedMerged (rs : List Record) (pheno tested : Record → Bool) : List MergedRow :=
  List.insertionSort rowLe (mergedRows rs pheno tested)

/-- Offset used by a pandas centered window: `(window - 1) // 2`.  The
centered window at position `i` is the clipped half-open index interval
`[i + 1 + offset - w, i + 1 + offset)`. -/
def centerOffset (w : Nat) : Nat := (w - 1) / 2

/-- The slice of the series seen by the centered rolling window at
position `i` (`take` and `drop` clip at the series boundaries exactly
as pandas clips the window). -/
def windowSlice (ps : List (Option ℚ)) (w i : Nat) : List (Option ℚ) :=
  (ps.take (i + 1 + centerOffset w)).drop (i + 1 + centerOffset w - w)

/-- The non-null observations inside the window at position `i`
(pandas skips `NaN` cells when accumulating, and counts only these
against `min_periods`). -/
def windowObs (ps : List (Option ℚ)) (w i : Nat) : List ℚ :=
  (windowSlice ps w i).filterMap id

/-- `rolling(window=w, center=True).mean()` at position `i`: defined
only when the window holds at least `min_periods = w` non-null
observations, and then equal to their arithmetic mean. -/
def rollingMean (ps : List (Option ℚ)) (w i : Nat) : Option ℚ :=
  let o := windowObs ps w i
  if w ≤ o.length then some (o.sum / (o.length : ℚ)) else none

/-- Sample mean of a list of observations. -/
def sampleMean (o : List ℚ) : ℚ := o.sum / (o.length : ℚ)

/-- Sample variance with denominator `n - 1` (`ddof = 1`, the pandas
`std` default), i.e. the square of the sample standard deviation. -/
def sampleVar (o : List ℚ) : ℚ :=
  (o.map (fun x => (x - sampleMean o) ^ 2)).sum / ((o.length : ℚ) - 1)

/-- Square of `rolling(window=w, center=True).std()` at position `i`:
defined when the window holds at least `min_periods = w` non-null
observations and at least `ddof + 1 = 2` of them (with fewer, the
`0 / 0` sample variance is `NaN`). -/
def rollingVar (ps : List (Option ℚ)) (w i : Nat) : Option ℚ :=
  let o := windowObs ps w i
  if w ≤ o.length ∧ 2 ≤ o.length then some (sampleVar o) else none

/-- The alert test
`(percent < moving_avg - z * std / sqrt w) | (percent > moving_avg + z * std / sqrt w)`
of the source, written without the square root: with
`m = z * sqrt v / sqrt w` the test is `|percent - avg| > m`, which for
any sign of `z` equals
`(z < 0 and v > 0) or z^2 * v < (percent - avg)^2 * w`
(theorem `C4_bounds_formula`).  Any `NaN` operand (`none`) makes every
pandas comparison false, hence no alert. -/
def alertAt (z : ℚ) (w : Nat) (p μ v : Option ℚ) : Bool :=
  match p, μ, v with
  | some p, some μ, some v =>
      decide ((z < 0 ∧ 0 < v) ∨ z ^ 2 * v < (p - μ) ^ 2 * (w : ℚ))
  | _, _, _ => false

/-- One fully annotated output row of `calculate_alerts`:
`moving_var` is the square of the source's `moving_std` column. -/
structure Row where
  week : Nat
  uf : Nat
  nb : Nat
  total : Option Nat
  percent : Option ℚ
  moving_avg : Option ℚ
  moving_var : Option ℚ
  alert : Bool
deriving DecidableEq, Repr

instance : Inhabited Row :=
  ⟨{ week := 0, uf := 0, nb := 0, total := none, percent := none,
     moving_avg := none, moving_var := none, alert := false }⟩

/-- Annotate the `i`-th row of a group with its rolling statistics and
alert flag (`ps` is the group's percent column). -/
def mkRow (ps : List (Option ℚ)) (w : Nat) (z : ℚ) (m : MergedRow) (i : Nat) : Row :=
  let μ := rollingMean ps w i
  let v := rollingVar ps w i
  { week := m.week, uf := m.uf, nb := m.nb, total := m.total, percent := m.percent,
    moving_avg := μ, moving_var := v, alert := alertAt z w m.percent μ v }

/-- The percent column of a group of merged rows. -/
def percentsOf (g : List MergedRow) : List (Option ℚ) := g.map (fun m => m.percent)

/-- The inner `rolling_alerts(group)`: annotate every row of one
sub-group with centered rolling statistics and the alert flag. -/
def rollingAlerts (w : Nat) (z : ℚ) (g : List MergedRow) : List Row :=
  (List.range g.length).map (fun i => mkRow (percentsOf g) w z (g.getD i default) i)

/-- The `i`-th output row of `rolling_alerts` on the group `g`. -/
def rowAt (w : Nat) (z : ℚ) (g : List MergedRow) (i : Nat) : Row :=
  (rollingAlerts w z g).getD i default

/-- The sorted list of distinct `UF` values of the merged rows: the
group order of `groupby('UF')`. -/
def ufKeys (g : List MergedRow) : List Nat :=
  List.insertionSort (fun a b => a ≤ b) (g.map (fun m => m.uf)).dedup

/-- `df_merged.groupby('UF').apply(rolling_alerts).reset_index(drop=True)`:
process each `UF` group independently and concatenate in sorted `UF`
order. -/
def applyByUF (w : Nat) (z : ℚ) (g : List MergedRow) : List Row :=
  (ufKeys g).flatMap (fun u => rollingAlerts w z (g.filter (fun m => m.uf == u)))

/-- The whole `calculate_alerts(df, phenotype, window_size, z_score)`:
choose the phenotype and denominator filters, aggregate, merge, sort,
and run the per-`UF` rolling pass.  The only failure in the source is
`raise ValueError("Phénotype inconnu")` on an unknown phenotype. -/
def calculateAlerts (df : List Record) (phenotype : String) (w : Nat) (z : ℚ) :
    Except String (List Row) :=
  if phenotype == "ERV" then
    Except.ok (applyByUF w z (sortedMerged df isPhenoERV isTestedERV))
  else if phenotype == "Wild" then
    Except.ok (applyByUF w z (sortedMerged df isPhenoWild isTestedWild))
  else
    Except.error "Phénotype inconnu"

/-! ### Concrete inputs used by counterexamples and witnesses -/

/-- A single record that is denominator-eligible for ERV (Vancomycine
tested `S`) but not ERV-positive. -/
def dfTestedOnly : List Record :=
  [{ week := 1, uf := 0, vanco := Outcome.S, teico := Outcome.S }]

/-- A single ERV-positive (and hence tested) record. -/
def dfOneR : List Record :=
  [{ week := 1, uf := 0, vanco := Outcome.R, teico := Outcome.R }]

/-- Two records in two different `UF` units. -/
def dfTwoUF : List Record :=
  [{ week := 1, uf := 0, vanco := Outcome.R, teico := Outcome.R },
   { week := 1, uf := 1, vanco := Outcome.S, teico := Outcome.S }]

/-- One bucket with three records: `(R, R)`, `(S, S)`, `(S, other)`.
The third record is in the ERV denominator but not in the Wild one. -/
def dfMixed : List Record :=
  [{ week := 1, uf := 0, vanco := Outcome.R, teico := Outcome.R },
   { week := 1, uf := 0, vanco := Outcome.S, teico := Outcome.S },
   { week := 1, uf := 0, vanco := Outcome.S, teico := Outcome.other }]

/-- One bucket with two records realizing the exclusive partition:
`(R, R)` is ERV-positive, `(S, S)` is Wild-positive, both are in both
denominators. -/
def dfPartition : List Record :=
  [{ week := 1, uf := 0, vanco := Outcome.R, teico := Outcome.R },
   { week := 1, uf := 0, vanco := Outcome.S, teico := Outcome.S }]

/-- Helper for building one-unit groups of merged rows. -/
def mrow (wk nb tt : Nat) (p : ℚ) : MergedRow :=
  { week := wk, uf := 0, nb := nb, total := some tt, percent := some p }

/-- A group of eight buckets, all at 100 percent. -/
def gFlat8 : List MergedRow :=
  [mrow 0 1 1 100, mrow 1 1 1 100, mrow 2 1 1 100, mrow 3 1 1 100,
   mrow 4 1 1 100, mrow 5 1 1 100, mrow 6 1 1 100, mrow 7 1 1 100]

/-- Scenario A of the specification: percentage series
`[10, 10, 10, 10, 10, 10, 10, 10, 50]` in one sub-group. -/
def gScenA : List MergedRow :=
  [mrow 0 1 10 10, mrow 1 1 10 10, mrow 2 1 10 10, mrow 3 1 10 10,
   mrow 4 1 10 10, mrow 5 1 10 10, mrow 6 1 10 10, mrow 7 1 10 10,
   mrow 8 5 10 50]

/-- A group of eight buckets whose fourth percent is null (a
denominator-zero bucket), the others at 100 percent. -/
def gHole : List MergedRow :=
  [mrow 0 1 1 100, mrow 1 1 1 100, mrow 2 1 1 100,
   { week := 3, uf := 0, nb := 0, total := none, percent := none },
   mrow 4 1 1 100, mrow 5 1 1 100, mrow 6 1 1 100, mrow 7 1 1 100]

/-! ### Basic lemmas about the rolling pass -/

theorem length_rollingAlerts (w : Nat) (z : ℚ) (g : List MergedRow) :
    (rollingAlerts w z g).length = g.length := by
  simp [rollingAlerts]

theorem rowAt_eq (w : Nat) (z : ℚ) (g : List MergedRow) (i : Nat) (h : i < g.length) :
    rowAt w z g i = mkRow (percentsOf g) w z (g.getD i default) i := by
  unfold rowAt rollingAlerts
  rw [List.getD_eq_getElem _ _ (by simpa using h)]
  simp

theorem rowAt_moving_avg (w : Nat) (z : ℚ) (g : List MergedRow) (i : Nat)
    (h : i < g.length) :
    (rowAt w z g i).moving_avg = rollingMean (percentsOf g) w i := by
  rw [rowAt_eq w z g i h]; rfl

theorem rowAt_moving_var (w : Nat) (z : ℚ) (g : List MergedRow) (i : Nat)
    (h : i < g.length) :
    (rowAt w z g i).moving_var = rollingVar (percentsOf g) w i := by
  rw [rowAt_eq w z g i h]; rfl

theorem rowAt_percent (w : Nat) (z : ℚ) (g : List MergedRow) (i : Nat)
    (h : i < g.length) :
    (rowAt w z g i).percent = (g.getD i default).percent := by
  rw [rowAt_eq w z g i h]; rfl

theorem rowAt_alert (w : Nat) (z : ℚ) (g : List MergedRow) (i : Nat)
    (h : i < g.length) :
    (rowAt w z g i).alert =
      alertAt z w (g.getD i default).percent
        (rollingMean (percentsOf g) w i) (rollingVar (percentsOf g) w i) := by
  rw [rowAt_eq w z g i h]; rfl

theorem length_windowSlice (ps : List (Option ℚ)) (w i : Nat) :
    (windowSlice ps w i).length =
      min (i + 1 + centerOffset w) ps.length - (i + 1 + centerOffset w - w) := by
  unfold windowSlice
  rw [List.length_drop, List.length_take]

theorem length_windowSlice_le (ps : List (Option ℚ)) (w i : Nat) :
    (windowSlice ps w i).length ≤ w := by
  rw [length_windowSlice]
  omega

theorem length_windowObs_le_slice (ps : List (Option ℚ)) (w i : Nat) :
    (windowObs ps w i).length ≤ (windowSlice ps w i).length :=
  List.length_filterMap_le _ _

theorem length_filterMap_id_lt {l : List (Option ℚ)} (h : none ∈ l) :
    (l.filterMap id).length < l.length := by
  induction l with
  | nil => cases h
  | cons a t ih =>
    cases a with
    | none =>
      have := List.length_filterMap_le (id : Option ℚ → Option ℚ) t
      simp [List.filterMap_cons]
      omega
    | some x =>
      have ht : none ∈ t := by simpa using h
      have := ih ht
      simp [List.filterMap_cons]
      omega

theorem rollingMean_eq_none (ps : List (Option ℚ)) (w i : Nat)
    (h : (windowObs ps w i).length < w) : rollingMean ps w i = none := by
  unfold rollingMean
  rw [if_neg]
  omega

theorem rollingVar_eq_none (ps : List (Option ℚ)) (w i : Nat)
    (h : (windowObs ps w i).length < w) : rollingVar ps w i = none := by
  unfold rollingVar
  rw [if_neg]
  omega

theorem alertAt_percent_none (z : ℚ) (w : Nat) (μ v : Option ℚ) :
    alertAt z w none μ v = false := by
  cases μ <;> cases v <;> rfl

theorem alertAt_avg_none (z : ℚ) (w : Nat) (p v : Option ℚ) :
    alertAt z w p none v = false := by
  cases p <;> cases v <;> rfl

theorem alertAt_var_none (z : ℚ) (w : Nat) (p μ : Option ℚ) :
    alertAt z w p μ none = false := by
  cases p <;> cases μ <;> rfl

/-- Left edge: at positions `i < w / 2` (even `w`), the centered window
is truncated and holds fewer than `w` cells. -/
theorem windowObs_short_left (ps : List (Option ℚ)) (w i : Nat)
    (hw : w % 2 = 0) (h2 : 2 ≤ w) (hi : i < w / 2) :
    (windowObs ps w i).length < w := by
  have h1 := length_windowObs_le_slice ps w i
  have h3 := length_windowSlice ps w i
  unfold centerOffset at h3
  omega

/-- Right edge: at positions with `ps.length < i + w / 2` (even `w`),
the centered window is truncated and holds fewer than `w` cells. -/
theorem windowObs_short_right (ps : List (Option ℚ)) (w i : Nat)
    (hw : w % 2 = 0) (h2 : 2 ≤ w) (hn : ps.length < i + w / 2) :
    (windowObs ps w i).length < w := by
  have h1 := length_windowObs_le_slice ps w i
  have h3 := length_windowSlice ps w i
  unfold centerOffset at h3
  omega

/-! ### Claims C2, C3, C5, C6: the rolling detector -/

/-- Claim C6: the alert flag is false at every position where the moving
average is undefined, and at every position where the percent is null —
a null percent is never flagged. -/
theorem C6_no_alert_on_undefined (w : Nat) (z : ℚ) (g : List MergedRow) (i : Nat)
    (h : i < g.length)
    (hcase : (rowAt w z g i).moving_avg = none ∨ (rowAt w z g i).percent = none) :
    (rowAt w z g i).alert = false := by
  rw [rowAt_alert w z g i h]
  rcases hcase with ha | hp
  · rw [rowAt_moving_avg w z g i h] at ha
    rw [ha]
    exact alertAt_avg_none z w _ _
  · rw [rowAt_percent w z g i h] at hp
    rw [hp]
    exact alertAt_percent_none z w _ _

/-- Witness for C6: the null-percent bucket of `gHole` is not flagged. -/
theorem C6_witness :
    (rowAt 8 (49/25) gHole 3).percent = none ∧ (rowAt 8 (49/25) gHole 3).alert = false :=
  ⟨by decide, C6_no_alert_on_undefined 8 (49/25) gHole 3 (by decide) (Or.inr (by decide))⟩

/-- Counterexample to claim C2 as stated: with window 8 on a series of
length 8, position 4 is among the last `⌊w/2⌋ = 4` positions, where the
claim asserts a null moving average — yet the moving average there is
defined (it is 100). -/
theorem C2_counterexample :
    gFlat8.length = 8 ∧ (rowAt 8 (49/25) gFlat8 4).moving_avg = some 100 := by
  constructor
  · decide
  · norm_num [rowAt, rollingAlerts, gFlat8, mrow, percentsOf, mkRow, rollingMean,
      rollingVar, windowObs, windowSlice, centerOffset, List.filterMap_cons, List.range_succ]

/-- Claim C2 (amended): for even `w`, the centered window at a position
`i` far enough from both boundaries is exactly the `w`-cell slice
starting at `i - w/2` (so it spans `[i - w/2, i + w/2 - 1]`); the
moving statistics are null and the alert false at the first `w/2` and
the last `w/2 - 1` positions of the sub-group's sequence (the source
convention leaves only `w/2 - 1` undefined trailing positions, not
`w/2`). -/
theorem C2_centered_window_edges (w : Nat) (z : ℚ) (g : List MergedRow) (i : Nat)
    (hw : w % 2 = 0) (h2 : 2 ≤ w) (hlen : w ≤ g.length) :
    (w / 2 ≤ i → i + w / 2 ≤ g.length →
      windowSlice (percentsOf g) w i = ((percentsOf g).drop (i - w / 2)).take w) ∧
    (i < g.length → (i < w / 2 ∨ g.length < i + w / 2) →
      (rowAt w z g i).moving_avg = none ∧ (rowAt w z g i).moving_var = none ∧
        (rowAt w z g i).alert = false) := by
  have hps : (percentsOf g).length = g.length := by simp [percentsOf]
  constructor
  · intro hge hle
    unfold windowSlice
    rw [List.drop_take]
    have hs : i + 1 + centerOffset w - w = i - w / 2 := by
      unfold centerOffset; omega
    have he : i + 1 + centerOffset w - (i - w / 2) = w := by
      unfold centerOffset; omega
    rw [hs, he]
  · intro hi hedge
    have hshort : (windowObs (percentsOf g) w i).length < w := by
      rcases hedge with hl | hr
      · exact windowObs_short_left (percentsOf g) w i hw h2 hl
      · exact windowObs_short_right (percentsOf g) w i hw h2 (by omega)
    refine ⟨?_, ?_, ?_⟩
    · rw [rowAt_moving_avg w z g i hi]
      exact rollingMean_eq_none _ w i hshort
    · rw [rowAt_moving_var w z g i hi]
      exact rollingVar_eq_none _ w i hshort
    · rw [rowAt_alert w z g i hi, rollingMean_eq_none _ w i hshort]
      exact alertAt_avg_none z w _ _

/-- Witness for the amended C2, instantiated on `gFlat8` with `w = 8`
at the left-edge position 0. -/
theorem C2_witness :
    (8 / 2 ≤ 0 → 0 + 8 / 2 ≤ gFlat8.length →
      windowSlice (percentsOf gFlat8) 8 0 = ((percentsOf gFlat8).drop (0 - 8 / 2)).take 8) ∧
    (0 < gFlat8.length → (0 < 8 / 2 ∨ gFlat8.length < 0 + 8 / 2) →
      (rowAt 8 (49/25) gFlat8 0).moving_avg = none ∧
        (rowAt 8 (49/25) gFlat8 0).moving_var = none ∧
        (rowAt 8 (49/25) gFlat8 0).alert = false) :=
  C2_centered_window_edges 8 (49/25) gFlat8 0 (by decide) (by decide) (by decide)

/-- Counterexample to claim C3 as stated: on Scenario A
(`[10,10,10,10,10,10,10,10,50]`, `w = 8`, `z = 1.96`) the detector does
NOT flag position 9 (index 8): its alert flag is false. -/
theorem C3_counterexample : (rowAt 8 (49/25) gScenA 8).alert = false := by
  have h9 : (8:Nat) < gScenA.length := by decide
  have hshort : (windowObs (percentsOf gScenA) 8 8).length < 8 :=
    windowObs_short_right (percentsOf gScenA) 8 8 (by decide) (by decide) (by decide)
  rw [rowAt_alert 8 (49/25) gScenA 8 h9, rollingMean_eq_none _ 8 8 hshort]
  exact alertAt_avg_none (49/25) 8 _ _

/-- Claim C3 (amended): in Scenario A the moving statistics at
position 9 are null — the centered window there extends past the end of
the series — so position 9 is not flagged. -/
theorem C3_scenarioA_edge :
    (rowAt 8 (49/25) gScenA 8).moving_avg = none ∧
      (rowAt 8 (49/25) gScenA 8).moving_var = none := by
  have h9 : (8:Nat) < gScenA.length := by decide
  have hshort : (windowObs (percentsOf gScenA) 8 8).length < 8 :=
    windowObs_short_right (percentsOf gScenA) 8 8 (by decide) (by decide) (by decide)
  constructor
  · rw [rowAt_moving_avg 8 (49/25) gScenA 8 h9]
    exact rollingMean_eq_none _ 8 8 hshort
  · rw [rowAt_moving_var 8 (49/25) gScenA 8 h9]
    exact rollingVar_eq_none _ 8 8 hshort

/-- Counterexample to claim C5 as stated: a window containing a null
percent does not produce a defined moving average computed from the
remaining values — the moving average is null. -/
theorem C5_counterexample :
    none ∈ windowSlice (percentsOf gHole) 8 4 ∧
      (rowAt 8 (49/25) gHole 4).moving_avg = none := by
  constructor
  · decide
  · decide

/-- Claim C5 (amended): when the centered window at a position contains
a null percent (denominator-zero bucket), the rolling statistics at
that position are null and the position is not flagged: with
`min_periods` defaulting to the window size, the detector does not
shrink the window, and it never imputes a value. -/
theorem C5_null_window_nullifies (w : Nat) (z : ℚ) (g : List MergedRow) (i : Nat)
    (hi : i < g.length) (hnull : none ∈ windowSlice (percentsOf g) w i) :
    (rowAt w z g i).moving_avg = none ∧ (rowAt w z g i).moving_var = none ∧
      (rowAt w z g i).alert = false := by
  have hlt : (windowObs (percentsOf g) w i).length < (windowSlice (percentsOf g) w i).length :=
    length_filterMap_id_lt hnull
  have hle := length_windowSlice_le (percentsOf g) w i
  have hshort : (windowObs (percentsOf g) w i).length < w := by omega
  refine ⟨?_, ?_, ?_⟩
  · rw [rowAt_moving_avg w z g i hi]
    exact rollingMean_eq_none _ w i hshort
  · rw [rowAt_moving_var w z g i hi]
    exact rollingVar_eq_none _ w i hshort
  · rw [rowAt_alert w z g i hi, rollingMean_eq_none _ w i hshort]
    exact alertAt_avg_none z w _ _

/-- Witness for the amended C5 on the concrete group `gHole`. -/
theorem C5_witness :
    (rowAt 8 (49/25) gHole 4).moving_avg = none ∧
      (rowAt 8 (49/25) gHole 4).moving_var = none ∧
      (rowAt 8 (49/25) gHole 4).alert = false :=
  C5_null_window_nullifies 8 (49/25) gHole 4 (by decide) (by decide)

/-! ### Claim C4: the confidence-bound formula over the reals -/

theorem rollingMean_eq_some (ps : List (Option ℚ)) (w i : Nat) (μ : ℚ)
    (h : rollingMean ps w i = some μ) :
    (windowObs ps w i).length = w ∧ μ = sampleMean (windowObs ps w i) := by
  unfold rollingMean at h
  by_cases hc : w ≤ (windowObs ps w i).length
  · rw [if_pos hc] at h
    have hle := length_windowObs_le_slice ps w i
    have hle2 := length_windowSlice_le ps w i
    injection h with h
    exact ⟨by omega, h.symm⟩
  · rw [if_neg hc] at h
    cases h

theorem rollingVar_eq_some (ps : List (Option ℚ)) (w i : Nat) (v : ℚ)
    (h : rollingVar ps w i = some v) :
    (windowObs ps w i).length = w ∧ 2 ≤ w ∧ v = sampleVar (windowObs ps w i) := by
  unfold rollingVar at h
  by_cases hc : w ≤ (windowObs ps w i).length ∧ 2 ≤ (windowObs ps w i).length
  · rw [if_pos hc] at h
    have hle := length_windowObs_le_slice ps w i
    have hle2 := length_windowSlice_le ps w i
    injection h with h
    refine ⟨by omega, by omega, h.symm⟩
  · rw [if_neg hc] at h
    cases h

theorem sampleVar_nonneg (o : List ℚ) (h2 : 2 ≤ o.length) : 0 ≤ sampleVar o := by
  unfold sampleVar
  apply div_nonneg
  · apply List.sum_nonneg
    intro x hx
    rcases List.mem_map.1 hx with ⟨y, _, rfl⟩
    exact sq_nonneg _
  · have : (2:ℚ) ≤ (o.length : ℚ) := by exact_mod_cast h2
    linarith

/-- Being outside the band `[c - m, c + m]` is having distance more
than `m` from the center `c`. -/
theorem outside_iff_abs (x c m : ℝ) : (x < c - m ∨ c + m < x) ↔ m < |x - c| := by
  rw [lt_abs]
  constructor
  · rintro (h | h)
    · right; linarith
    · left; linarith
  · rintro (h | h)
    · right; linarith
    · left; linarith

/-- The square-root-free alert test of `alertAt` is, over `ℝ`, exactly
the source's comparison of `percent` against
`moving_avg ± z * (sqrt moving_var / sqrt window_size)`. -/
theorem alert_iff_real (z p μ v : ℚ) (w : Nat) (hv : 0 ≤ v) (hw : 0 < w) :
    ((z < 0 ∧ 0 < v) ∨ z ^ 2 * v < (p - μ) ^ 2 * (w : ℚ)) ↔
      ((p : ℝ) < (μ : ℝ) - (z : ℝ) * (Real.sqrt (v : ℝ) / Real.sqrt (w : ℝ)) ∨
        (μ : ℝ) + (z : ℝ) * (Real.sqrt (v : ℝ) / Real.sqrt (w : ℝ)) < (p : ℝ)) := by
  rw [outside_iff_abs]
  have hvR : (0:ℝ) ≤ (v:ℝ) := by exact_mod_cast hv
  have hwR : (0:ℝ) < (w:ℝ) := by exact_mod_cast hw
  have hsv : Real.sqrt (v:ℝ) ^ 2 = (v:ℝ) := Real.sq_sqrt hvR
  have hsw : Real.sqrt (w:ℝ) ^ 2 = (w:ℝ) := Real.sq_sqrt (le_of_lt hwR)
  have hswpos : (0:ℝ) < Real.sqrt (w:ℝ) := Real.sqrt_pos.2 hwR
  have hsvnn : (0:ℝ) ≤ Real.sqrt (v:ℝ) := Real.sqrt_nonneg _
  have hcast : (z ^ 2 * v < (p - μ) ^ 2 * (w : ℚ)) ↔
      ((z:ℝ) ^ 2 * (v:ℝ) < ((p:ℝ) - (μ:ℝ)) ^ 2 * (w:ℝ)) := by
    norm_cast
  set m : ℝ := (z:ℝ) * (Real.sqrt (v:ℝ) / Real.sqrt (w:ℝ)) with hm
  have hm2 : m ^ 2 * (w:ℝ) = (z:ℝ) ^ 2 * (v:ℝ) := by
    rw [hm, mul_pow, div_pow, hsv, hsw]
    field_simp
  by_cases hz : 0 ≤ z
  · have hmnn : 0 ≤ m := by
      rw [hm]
      exact mul_nonneg (by exact_mod_cast hz) (div_nonneg hsvnn (le_of_lt hswpos))
    constructor
    · rintro (⟨hz0, _⟩ | hlt)
      · exact absurd hz0 (not_lt.2 hz)
      · have hx2 : m ^ 2 * (w:ℝ) < ((p:ℝ) - (μ:ℝ)) ^ 2 * (w:ℝ) := by
          rw [hm2]; exact hcast.1 hlt
        have hx3 : m ^ 2 < ((p:ℝ) - (μ:ℝ)) ^ 2 := by nlinarith
        by_contra hcon
        push_neg at hcon
        have := mul_self_le_mul_self (abs_nonneg ((p:ℝ) - (μ:ℝ))) hcon
        nlinarith [sq_abs ((p:ℝ) - (μ:ℝ))]
    · intro hlt
      right
      rw [hcast, ← hm2]
      have h2 : m * m < |(p:ℝ) - (μ:ℝ)| * |(p:ℝ) - (μ:ℝ)| :=
        mul_self_lt_mul_self hmnn hlt
      nlinarith [sq_abs ((p:ℝ) - (μ:ℝ))]
  · push_neg at hz
    by_cases hv0 : 0 < v
    · have hmneg : m < 0 := by
        rw [hm]
        apply mul_neg_of_neg_of_pos
        · exact_mod_cast hz
        · exact div_pos (Real.sqrt_pos.2 (by exact_mod_cast hv0)) hswpos
      constructor
      · intro _
        exact lt_of_lt_of_le hmneg (abs_nonneg _)
      · intro _
        exact Or.inl ⟨hz, hv0⟩
    · have hveq : v = 0 := le_antisymm (not_lt.1 hv0) hv
      subst hveq
      have hm0 : m = 0 := by
        rw [hm]
        simp
      rw [hm0]
      constructor
      · rintro (⟨_, hfalse⟩ | hlt)
        · exact absurd hfalse (by norm_num)
        · rw [hcast] at hlt
          have hx : (p:ℝ) - (μ:ℝ) ≠ 0 := by
            intro h0
            rw [h0] at hlt
            simp at hlt
          exact abs_pos.2 hx
      · intro habs
        right
        rw [hcast]
        have hx2 : 0 < ((p:ℝ) - (μ:ℝ)) ^ 2 := by
          have := pow_pos habs 2
          rwa [sq_abs] at this
        push_cast
        nlinarith

/-- Claim C4: wherever both moving statistics are defined, the window
holds exactly `window_size` non-null observations, `moving_avg` is the
sample mean of the window, `moving_var` is the square of the sample
standard deviation with denominator `w - 1` (`sampleVar`), and the
alert flag is exactly the source's comparison of `percent` against
`moving_avg ± z_score * (moving_std / sqrt window_size)` — the divisor
under the square root being the configured `window_size`. -/
theorem C4_bounds_formula (w : Nat) (z : ℚ) (g : List MergedRow) (i : Nat)
    (hi : i < g.length) (μ v : ℚ)
    (hμ : (rowAt w z g i).moving_avg = some μ)
    (hv : (rowAt w z g i).moving_var = some v) :
    (windowObs (percentsOf g) w i).length = w ∧ 2 ≤ w ∧
      μ = sampleMean (windowObs (percentsOf g) w i) ∧
      v = sampleVar (windowObs (percentsOf g) w i) ∧
      ((rowAt w z g i).alert = true ↔ ∃ p : ℚ, (rowAt w z g i).percent = some p ∧
        ((p : ℝ) < (μ : ℝ) - (z : ℝ) * (Real.sqrt (v : ℝ) / Real.sqrt (w : ℝ)) ∨
          (μ : ℝ) + (z : ℝ) * (Real.sqrt (v : ℝ) / Real.sqrt (w : ℝ)) < (p : ℝ))) := by
  rw [rowAt_moving_avg w z g i hi] at hμ
  rw [rowAt_moving_var w z g i hi] at hv
  obtain ⟨hlen, hμval⟩ := rollingMean_eq_some _ w i μ hμ
  obtain ⟨_, hw2, hvval⟩ := rollingVar_eq_some _ w i v hv
  have hvnn : 0 ≤ v := by
    rw [hvval]
    exact sampleVar_nonneg _ (by omega)
  refine ⟨hlen, hw2, hμval, hvval, ?_⟩
  rw [rowAt_alert w z g i hi, rowAt_percent w z g i hi, hμ, hv]
  cases hp : (g.getD i default).percent with
  | none =>
    simp [alertAt]
  | some p =>
    unfold alertAt
    rw [decide_eq_true_iff]
    rw [alert_iff_real z p μ v w hvnn (by omega)]
    constructor
    · intro h
      exact ⟨p, rfl, h⟩
    · rintro ⟨q, hq, h⟩
      injection hq with hq
      subst hq
      exact h

/-- Witness for C4 on the flat group `gFlat8` at position 4
(`moving_avg = 100`, `moving_var = 0`, `percent = 100`, no alert). -/
theorem C4_witness :
    (windowObs (percentsOf gFlat8) 8 4).length = 8 ∧ 2 ≤ 8 ∧
      (100 : ℚ) = sampleMean (windowObs (percentsOf gFlat8) 8 4) ∧
      (0 : ℚ) = sampleVar (windowObs (percentsOf gFlat8) 8 4) ∧
      ((rowAt 8 (49/25) gFlat8 4).alert = true ↔
        ∃ p : ℚ, (rowAt 8 (49/25) gFlat8 4).percent = some p ∧
          ((p : ℝ) < ((100:ℚ) : ℝ) - ((49/25 : ℚ) : ℝ) *
              (Real.sqrt (((0:ℚ) : ℝ)) / Real.sqrt ((8 : ℝ))) ∨
            ((100:ℚ) : ℝ) + ((49/25 : ℚ) : ℝ) *
              (Real.sqrt (((0:ℚ) : ℝ)) / Real.sqrt ((8 : ℝ))) < (p : ℝ))) :=
  C4_bounds_formula 8 (49/25) gFlat8 4 (by decide) 100 0
    (by norm_num [rowAt, rollingAlerts, gFlat8, mrow, percentsOf, mkRow, rollingMean,
      rollingVar, windowObs, windowSlice, centerOffset, sampleMean, sampleVar,
      List.filterMap_cons, List.range_succ])
    (by norm_num [rowAt, rollingAlerts, gFlat8, mrow, percentsOf, mkRow, rollingMean,
      rollingVar, windowObs, windowSlice, centerOffset, sampleMean, sampleVar,
      List.filterMap_cons, List.range_succ])

/-! ### Pipeline lemmas: aggregation, merge and grouping -/

theorem mem_rollingAlerts (w : Nat) (z : ℚ) (g : List MergedRow) (row : Row) :
    row ∈ rollingAlerts w z g ↔
      ∃ i, i < g.length ∧ mkRow (percentsOf g) w z (g.getD i default) i = row := by
  unfold rollingAlerts
  constructor
  · intro h
    rcases List.mem_map.1 h with ⟨i, hi, heq⟩
    exact ⟨i, List.mem_range.1 hi, heq⟩
  · rintro ⟨i, hi, heq⟩
    exact List.mem_map.2 ⟨i, List.mem_range.2 hi, heq⟩

theorem mem_ufKeys (g : List MergedRow) (u : Nat) :
    u ∈ ufKeys g ↔ ∃ m ∈ g, m.uf = u := by
  unfold ufKeys
  rw [(List.perm_insertionSort _ _).mem_iff, List.mem_dedup, List.mem_map]

theorem nodup_ufKeys (g : List MergedRow) : (ufKeys g).Nodup :=
  (List.perm_insertionSort _ _).nodup_iff.2 (List.nodup_dedup _)

theorem mem_applyByUF (w : Nat) (z : ℚ) (g : List MergedRow) (row : Row) :
    row ∈ applyByUF w z g ↔
      ∃ u ∈ ufKeys g, row ∈ rollingAlerts w z (g.filter (fun m => m.uf == u)) :=
  List.mem_flatMap

theorem mem_groupKeys (rs : List Record) (k : Nat × Nat) :
    k ∈ groupKeys rs ↔ ∃ r ∈ rs, recKey r = k := by
  unfold groupKeys
  rw [(List.perm_insertionSort _ _).mem_iff, List.mem_dedup, List.mem_map]

theorem nodup_groupKeys (rs : List Record) : (groupKeys rs).Nodup :=
  (List.perm_insertionSort _ _).nodup_iff.2 (List.nodup_dedup _)

theorem countKey_pos (rs : List Record) (k : Nat × Nat) (h : k ∈ groupKeys rs) :
    1 ≤ countKey rs k := by
  rcases (mem_groupKeys rs k).1 h with ⟨r, hr, hk⟩
  have : 0 < rs.countP (fun r => recKey r == k) :=
    List.countP_pos.2 ⟨r, hr, by simp [hk]⟩
  unfold countKey
  omega

theorem find?_beq_self (l : List (Nat × Nat)) (k : Nat × Nat) (h : k ∈ l) :
    List.find? (fun e => e == k) l = some k := by
  induction l with
  | nil => cases h
  | cons a t ih =>
    by_cases ha : a = k
    · subst ha
      exact List.find?_cons_of_pos _ (by simp)
    · rw [List.find?_cons_of_neg _ (by simp [ha])]
      apply ih
      cases h with
      | head => exact absurd rfl ha
      | tail _ h2 => exact h2

/-- A left-merge lookup in the totals table: defined exactly on the
keys present among the tested records, and then equal to the tested
count. -/
theorem lookupCount_groupSize (rs : List Record) (k : Nat × Nat) :
    lookupCount (groupSize rs) k =
      if k ∈ groupKeys rs then some (countKey rs k) else none := by
  unfold lookupCount groupSize
  rw [List.find?_map]
  by_cases hk : k ∈ groupKeys rs
  · rw [if_pos hk]
    have hcomp : ((fun e : (Nat × Nat) × Nat => e.1 == k) ∘ fun k' => (k', countKey rs k'))
        = fun k' => k' == k := rfl
    rw [hcomp, find?_beq_self _ k hk]
    rfl
  · rw [if_neg hk]
    have hnone : List.find?
        ((fun e : (Nat × Nat) × Nat => e.1 == k) ∘ fun k' => (k', countKey rs k'))
        (groupKeys rs) = none := by
      apply List.find?_eq_none.2
      intro x hx
      simp only [Function.comp_apply, beq_iff_eq]
      rintro rfl
      exact hk hx
    rw [hnone]
    rfl

theorem mergedRows_eq_map (rs : List Record) (pheno tested : Record → Bool) :
    mergedRows rs pheno tested =
      (groupKeys (rs.filter pheno)).map (mergedRowFor rs pheno tested) := by
  unfold mergedRows groupSize mergedRowFor
  rw [List.map_map]
  rfl

theorem sortedMerged_perm (rs : List Record) (pheno tested : Record → Bool) :
    (sortedMerged rs pheno tested).Perm (mergedRows rs pheno tested) :=
  List.perm_insertionSort _ _

/-- Phenotype-positive records are always in their denominator (ERV). -/
theorem phenoERV_tested (r : Record) (h : isPhenoERV r = true) : isTestedERV r = true := by
  unfold isPhenoERV at h
  unfold isTestedERV
  rw [h]
  rfl

/-- Phenotype-positive records are always in their denominator (Wild). -/
theorem phenoWild_tested (r : Record) (h : isPhenoWild r = true) : isTestedWild r = true := by
  unfold isPhenoWild at h
  rw [Bool.and_eq_true] at h
  unfold isTestedWild
  rw [h.1, h.2]
  simp

/-- Every output row of the per-`UF` rolling pass over the merged table
is the annotation of a merged row for some phenotype key `k`; its base
columns are the phenotype count at `k`, the (defined) tested total at
`k`, and their ratio as a percentage. -/
theorem output_row_spec (w : Nat) (z : ℚ) (rs : List Record)
    (pheno tested : Record → Bool) (row : Row)
    (hsub : ∀ r, pheno r = true → tested r = true)
    (hrow : row ∈ applyByUF w z (sortedMerged rs pheno tested)) :
    ∃ k, k ∈ groupKeys (rs.filter pheno) ∧
      row.week = k.1 ∧ row.uf = k.2 ∧
      row.nb = countKey (rs.filter pheno) k ∧
      row.total = some (countKey (rs.filter tested) k) ∧
      row.percent = some ((countKey (rs.filter pheno) k : ℚ) /
        (countKey (rs.filter tested) k : ℚ) * 100) := by
  rcases (mem_applyByUF w z _ row).1 hrow with ⟨u, hu, hra⟩
  rcases (mem_rollingAlerts w z _ row).1 hra with ⟨i, hi, heq⟩
  set g := (sortedMerged rs pheno tested).filter (fun m => m.uf == u) with hg
  have hmem : g.getD i default ∈ g := by
    rw [List.getD_eq_getElem _ _ hi]
    exact List.getElem_mem hi
  have hmem2 : g.getD i default ∈ sortedMerged rs pheno tested :=
    (List.mem_filter.1 hmem).1
  have hmem3 : g.getD i default ∈ mergedRows rs pheno tested :=
    (sortedMerged_perm rs pheno tested).subset hmem2
  rw [mergedRows_eq_map] at hmem3
  rcases List.mem_map.1 hmem3 with ⟨k, hk, hkeq⟩
  have hktested : k ∈ groupKeys (rs.filter tested) := by
    rcases (mem_groupKeys _ k).1 hk with ⟨r, hr, hrk⟩
    rcases List.mem_filter.1 hr with ⟨hrs, hp⟩
    exact (mem_groupKeys _ k).2 ⟨r, List.mem_filter.2 ⟨hrs, hsub r hp⟩, hrk⟩
  have htot := lookupCount_groupSize (rs.filter tested) k
  rw [if_pos hktested] at htot
  refine ⟨k, hk, ?_⟩
  subst heq
  rw [← hkeq]
  unfold mkRow mergedRowFor
  simp [htot]

/-! ### Claims C10, C1, C8: the aggregation pipeline -/

/-- Claim C10: every record counted in a numerator also satisfies the
denominator filter, so after the left merge every output row has a
defined total, at least 1 and at least the (positive) phenotype count,
and a defined percent lying in `(0, 100]`; a null-percent row never
occurs in the output. -/
theorem C10_percent_defined (df : List Record) (s : String) (w : Nat) (z : ℚ)
    (rows : List Row) (row : Row)
    (hok : calculateAlerts df s w z = Except.ok rows) (hrow : row ∈ rows) :
    ∃ (n t : Nat) (p : ℚ), row.nb = n ∧ row.total = some t ∧ 1 ≤ n ∧ n ≤ t ∧
      row.percent = some p ∧ 0 < p ∧ p ≤ 100 := by
  have main : ∀ (pheno tested : Record → Bool),
      (∀ r, pheno r = true → tested r = true) →
      row ∈ applyByUF w z (sortedMerged df pheno tested) →
      ∃ (n t : Nat) (p : ℚ), row.nb = n ∧ row.total = some t ∧ 1 ≤ n ∧ n ≤ t ∧
        row.percent = some p ∧ 0 < p ∧ p ≤ 100 := by
    intro pheno tested hsub hmem
    rcases output_row_spec w z df pheno tested row hsub hmem with
      ⟨k, hk, _, _, hnb, htot, hpct⟩
    have hn1 : 1 ≤ countKey (df.filter pheno) k := countKey_pos _ k hk
    have hmono : countKey (df.filter pheno) k ≤ countKey (df.filter tested) k := by
      unfold countKey
      rw [List.countP_filter, List.countP_filter]
      apply List.countP_mono_left
      intro r _ h
      rw [Bool.and_eq_true] at h ⊢
      exact ⟨h.1, hsub r h.2⟩
    set n := countKey (df.filter pheno) k with hn
    set t := countKey (df.filter tested) k with ht
    have htq : (0:ℚ) < (t:ℚ) := by
      have : 1 ≤ t := le_trans hn1 hmono
      exact_mod_cast this
    refine ⟨n, t, (n:ℚ) / (t:ℚ) * 100, hnb, htot, hn1, hmono, hpct, ?_, ?_⟩
    · apply mul_pos _ (by norm_num)
      apply div_pos _ htq
      exact_mod_cast hn1
    · have hle : (n:ℚ) / (t:ℚ) ≤ 1 := (div_le_one htq).2 (by exact_mod_cast hmono)
      calc (n:ℚ) / (t:ℚ) * 100 ≤ 1 * 100 :=
            mul_le_mul_of_nonneg_right hle (by norm_num)
        _ = 100 := by norm_num
  unfold calculateAlerts at hok
  split at hok
  · injection hok with h
    subst h
    exact main isPhenoERV isTestedERV phenoERV_tested hrow
  · split at hok
    · injection hok with h
      subst h
      exact main isPhenoWild isTestedWild phenoWild_tested hrow
    · cases hok

set_option maxHeartbeats 2000000 in
/-- Witness for C10 on the single ERV-positive record `dfOneR`. -/
theorem C10_witness :
    ∃ (n t : Nat) (p : ℚ),
      ({ week := 1, uf := 0, nb := 1, total := some 1, percent := some 100,
         moving_avg := none, moving_var := none, alert := false } : Row).nb = n ∧
      ({ week := 1, uf := 0, nb := 1, total := some 1, percent := some 100,
         moving_avg := none, moving_var := none, alert := false } : Row).total = some t ∧
      1 ≤ n ∧ n ≤ t ∧
      ({ week := 1, uf := 0, nb := 1, total := some 1, percent := some 100,
         moving_avg := none, moving_var := none, alert := false } : Row).percent = some p ∧
      0 < p ∧ p ≤ 100 :=
  C10_percent_defined dfOneR "ERV" 8 (49/25)
    [{ week := 1, uf := 0, nb := 1, total := some 1, percent := some 100,
       moving_avg := none, moving_var := none, alert := false }]
    { week := 1, uf := 0, nb := 1, total := some 1, percent := some 100,
      moving_avg := none, moving_var := none, alert := false }
    (by norm_num [calculateAlerts, applyByUF, sortedMerged, mergedRows, groupSize, groupKeys,
        countKey, lookupCount, ufKeys, rollingAlerts, mkRow, percentsOf, rollingMean,
        rollingVar, windowObs, windowSlice, centerOffset, alertAt, sampleMean, sampleVar,
        dfOneR, recKey, isPhenoERV, isTestedERV, List.insertionSort, List.orderedInsert,
        List.filterMap_cons, List.range_succ, List.find?])
    (List.mem_singleton.2 rfl)

theorem flatMap_congr_mem {α β : Type} (l : List α) (f g : α → List β)
    (h : ∀ a ∈ l, f a = g a) : l.flatMap f = l.flatMap g := by
  induction l with
  | nil => rfl
  | cons a t ih =>
    rw [List.flatMap_cons, List.flatMap_cons, h a (by simp),
      ih (fun x hx => h x (by simp [hx]))]

/-- Splitting a list into its per-key groups (one group per distinct
key, every element's key covered) is a permutation of the list. -/
theorem flatMap_filter_perm (keys : List Nat) (l : List MergedRow)
    (hnd : keys.Nodup) (hcov : ∀ m ∈ l, m.uf ∈ keys) :
    (keys.flatMap (fun u => l.filter (fun m => m.uf == u))).Perm l := by
  induction keys generalizing l with
  | nil =>
    cases l with
    | nil => simp
    | cons a t => exact absurd (hcov a (by simp)) (by simp)
  | cons u ks ih =>
    rw [List.flatMap_cons]
    have hnd2 : ks.Nodup := (List.nodup_cons.1 hnd).2
    have hu : u ∉ ks := (List.nodup_cons.1 hnd).1
    have hcov2 : ∀ m ∈ l.filter (fun m => !(m.uf == u)), m.uf ∈ ks := by
      intro m hm
      rcases List.mem_filter.1 hm with ⟨hml, hmu⟩
      cases hcov m hml with
      | head => simp at hmu
      | tail _ h => exact h
    have hrest : ks.flatMap (fun u' => l.filter (fun m => m.uf == u')) =
        ks.flatMap (fun u' =>
          (l.filter (fun m => !(m.uf == u))).filter (fun m => m.uf == u')) := by
      apply flatMap_congr_mem
      intro u' hu'
      have hne : u' ≠ u := fun h => hu (h ▸ hu')
      rw [List.filter_filter]
      apply List.filter_congr
      intro m _
      by_cases hmu : m.uf = u'
      · simp [hmu, hne]
      · simp [hmu]
    rw [hrest]
    have hperm2 := ih (l.filter (fun m => !(m.uf == u))) hnd2 hcov2
    exact (List.Perm.append_left _ hperm2).trans (List.filter_append_perm _ l)

/-- The keys of the annotated rows of one group are the keys of the
group's merged rows, in order. -/
theorem rollingAlerts_map_key (w : Nat) (z : ℚ) (g : List MergedRow) :
    (rollingAlerts w z g).map (fun row => (row.week, row.uf)) =
      g.map (fun m => (m.week, m.uf)) := by
  apply List.ext_getElem
  · simp [rollingAlerts]
  · intro n h1 h2
    have hn : n < g.length := by simpa using h2
    simp only [List.getElem_map, rollingAlerts, List.getElem_range]
    rw [List.getD_eq_getElem _ _ hn]
    rfl

/-- The `(week, UF)` keys of the merged table are exactly the sorted
phenotype keys. -/
theorem mergedRows_map_key (rs : List Record) (pheno tested : Record → Bool) :
    (mergedRows rs pheno tested).map (fun m => (m.week, m.uf)) =
      groupKeys (rs.filter pheno) := by
  rw [mergedRows_eq_map, List.map_map]
  have hfun : ((fun m : MergedRow => (m.week, m.uf)) ∘ mergedRowFor rs pheno tested) =
      fun k : Nat × Nat => (k.1, k.2) := rfl
  rw [hfun]
  simp

/-- The multiset of `(week, UF)` keys of the pipeline's output is the
set of distinct keys of the phenotype-positive records. -/
theorem applyByUF_keys_perm (w : Nat) (z : ℚ) (rs : List Record)
    (pheno tested : Record → Bool) :
    ((applyByUF w z (sortedMerged rs pheno tested)).map
        (fun row => (row.week, row.uf))).Perm
      (groupKeys (rs.filter pheno)) := by
  unfold applyByUF
  rw [List.map_flatMap]
  rw [flatMap_congr_mem _ _
      (fun u => ((sortedMerged rs pheno tested).filter (fun m => m.uf == u)).map
        (fun m => (m.week, m.uf)))
      (fun u _ => rollingAlerts_map_key w z _)]
  rw [← List.map_flatMap]
  have hperm := flatMap_filter_perm (ufKeys (sortedMerged rs pheno tested))
    (sortedMerged rs pheno tested) (nodup_ufKeys _)
    (fun m hm => (mem_ufKeys _ _).2 ⟨m, hm, rfl⟩)
  have h2 : ((sortedMerged rs pheno tested).map (fun m => (m.week, m.uf))).Perm
      (groupKeys (rs.filter pheno)) := by
    rw [← mergedRows_map_key rs pheno tested]
    exact (sortedMerged_perm rs pheno tested).map _
  exact (hperm.map _).trans h2

/-- Counterexample to claim C1 as stated: a record that is
denominator-eligible (Vancomycine tested `S`) but not ERV-positive
yields an empty output — the (week, UF) bucket with eligible tested
records and zero phenotype-positive records is dropped, not
represented. -/
theorem C1_counterexample :
    isTestedERV { week := 1, uf := 0, vanco := Outcome.S, teico := Outcome.S } = true ∧
      calculateAlerts dfTestedOnly "ERV" 8 (49/25) = Except.ok [] := by
  constructor
  · decide
  · rfl

/-- Claim C1 (amended): `calculate_alerts` produces exactly one output
row per `(week, UF)` combination present among the PHENOTYPE-POSITIVE
records (the left merge is keyed on the phenotype counts): combinations
with eligible tested records but zero phenotype-positive records are
dropped from the output, and denominator-zero buckets therefore never
appear. -/
theorem C1_buckets (df : List Record) (w : Nat) (z : ℚ) :
    (∀ rows, calculateAlerts df "ERV" w z = Except.ok rows →
      ((rows.map (fun row => (row.week, row.uf))).Perm
          (groupKeys (df.filter isPhenoERV)) ∧
        ∀ k, k ∈ groupKeys (df.filter isPhenoERV) ↔
          ∃ r ∈ df, isPhenoERV r = true ∧ recKey r = k)) ∧
    (∀ rows, calculateAlerts df "Wild" w z = Except.ok rows →
      ((rows.map (fun row => (row.week, row.uf))).Perm
          (groupKeys (df.filter isPhenoWild)) ∧
        ∀ k, k ∈ groupKeys (df.filter isPhenoWild) ↔
          ∃ r ∈ df, isPhenoWild r = true ∧ recKey r = k)) := by
  constructor
  · intro rows hok
    have hrows : rows = applyByUF w z (sortedMerged df isPhenoERV isTestedERV) := by
      unfold calculateAlerts at hok
      simp at hok
      exact hok.symm
    subst hrows
    refine ⟨applyByUF_keys_perm w z df isPhenoERV isTestedERV, ?_⟩
    intro k
    rw [mem_groupKeys]
    constructor
    · rintro ⟨r, hr, hk⟩
      rcases List.mem_filter.1 hr with ⟨hrs, hp⟩
      exact ⟨r, hrs, hp, hk⟩
    · rintro ⟨r, hrs, hp, hk⟩
      exact ⟨r, List.mem_filter.2 ⟨hrs, hp⟩, hk⟩
  · intro rows hok
    have hrows : rows = applyByUF w z (sortedMerged df isPhenoWild isTestedWild) := by
      unfold calculateAlerts at hok
      simp at hok
      exact hok.symm
    subst hrows
    refine ⟨applyByUF_keys_perm w z df isPhenoWild isTestedWild, ?_⟩
    intro k
    rw [mem_groupKeys]
    constructor
    · rintro ⟨r, hr, hk⟩
      rcases List.mem_filter.1 hr with ⟨hrs, hp⟩
      exact ⟨r, hrs, hp, hk⟩
    · rintro ⟨r, hrs, hp, hk⟩
      exact ⟨r, List.mem_filter.2 ⟨hrs, hp⟩, hk⟩

set_option maxHeartbeats 2000000 in
/-- Witness for the amended C1: on the single positive record the
output's key list is a permutation of (here: equal to) the positive
key list `[(1, 0)]`. -/
theorem C1_witness :
    (([{ week := 1, uf := 0, nb := 1, total := some 1, percent := some 100,
         moving_avg := none, moving_var := none, alert := false }] : List Row).map
        (fun row => (row.week, row.uf))).Perm
      (groupKeys (dfOneR.filter isPhenoERV)) ∧
    ∀ k, k ∈ groupKeys (dfOneR.filter isPhenoERV) ↔
      ∃ r ∈ dfOneR, isPhenoERV r = true ∧ recKey r = k :=
  (C1_buckets dfOneR 8 (49/25)).1
    [{ week := 1, uf := 0, nb := 1, total := some 1, percent := some 100,
       moving_avg := none, moving_var := none, alert := false }]
    (by norm_num [calculateAlerts, applyByUF, sortedMerged, mergedRows, groupSize, groupKeys,
      countKey, lookupCount, ufKeys, rollingAlerts, mkRow, percentsOf, rollingMean,
      rollingVar, windowObs, windowSlice, centerOffset, alertAt, sampleMean, sampleVar,
      dfOneR, recKey, isPhenoERV, isTestedERV, List.insertionSort, List.orderedInsert,
      List.filterMap_cons, List.range_succ, List.find?])

/-- Counterexample to claim C8 as stated: with `z_score = -1 < 0` the
function does not fail with any configuration error — it returns a
normal result. -/
theorem C8_counterexample :
    (calculateAlerts dfOneR "ERV" 8 (-1)).isOk = true := by
  decide

/-- Claim C8 (amended): `calculate_alerts` performs no configuration
validation and defines no `InvalidConfigError`: for every window size
of at least one bucket and every `z_score` — negative ones included —
the call succeeds exactly when the phenotype is one of the two known
names; its only failure is the unknown-phenotype `ValueError`. -/
theorem C8_no_config_validation (df : List Record) (s : String) (w : Nat) (z : ℚ)
    (hw : 1 ≤ w) :
    (calculateAlerts df s w z).isOk = (s == "ERV" || s == "Wild") := by
  unfold calculateAlerts
  by_cases h1 : s = "ERV"
  · subst h1
    simp [Except.isOk, Except.toBool]
  · by_cases h2 : s = "Wild" <;> simp [h1, h2, Except.isOk, Except.toBool]

/-- Witness for the amended C8 at `z_score = -1`. -/
theorem C8_witness :
    (calculateAlerts dfOneR "ERV" 8 (-1)).isOk = ("ERV" == "ERV" || "ERV" == "Wild") :=
  C8_no_config_validation dfOneR "ERV" 8 (-1) (by decide)

/-! ### Claim C7: do the two phenotype percentages sum to 100? -/

theorem testedWild_testedERV (r : Record) (h : isTestedWild r = true) :
    isTestedERV r = true := by
  unfold isTestedWild at h
  rw [Bool.and_eq_true] at h
  unfold isTestedERV
  exact h.1

theorem countP_or_disjoint (l : List Record) (p q : Record → Bool)
    (hd : ∀ r ∈ l, ¬(p r = true ∧ q r = true)) :
    l.countP (fun r => p r || q r) = l.countP p + l.countP q := by
  induction l with
  | nil => rfl
  | cons a t ih =>
    rw [List.countP_cons, List.countP_cons, List.countP_cons,
      ih (fun r hr => hd r (by simp [hr]))]
    by_cases hp : p a = true
    · have hq : ¬ q a = true := fun hq => hd a (by simp) ⟨hp, hq⟩
      simp [hp, hq]
      omega
    · by_cases hq : q a = true <;> simp [hp, hq] <;> omega

set_option maxHeartbeats 4000000 in
/-- Counterexample to claim C7 as stated: on one bucket holding the
records `(R,R)`, `(S,S)`, `(S,other)` the ERV percentage is `100/3`
(denominator 3: all three are vancomycin-tested) while the Wild
percentage is `50` (denominator 2: only two records are tested on both
drugs), and `100/3 + 50 ≠ 100`. -/
theorem C7_counterexample :
    calculateAlerts dfMixed "ERV" 8 (49/25) = Except.ok
      [{ week := 1, uf := 0, nb := 1, total := some 3, percent := some (100/3),
         moving_avg := none, moving_var := none, alert := false }] ∧
    calculateAlerts dfMixed "Wild" 8 (49/25) = Except.ok
      [{ week := 1, uf := 0, nb := 1, total := some 2, percent := some 50,
         moving_avg := none, moving_var := none, alert := false }] ∧
    (100/3 : ℚ) + 50 ≠ 100 := by
  refine ⟨?_, ?_, by norm_num⟩
  · norm_num +decide [calculateAlerts, applyByUF, sortedMerged, mergedRows, groupSize, groupKeys,
      countKey, lookupCount, ufKeys, rollingAlerts, mkRow, percentsOf, rollingMean,
      rollingVar, windowObs, windowSlice, centerOffset, alertAt, sampleMean, sampleVar,
      dfMixed, recKey, isPhenoERV, isTestedERV, List.insertionSort, List.orderedInsert,
      List.countP_cons, List.countP_nil, List.filter_cons, List.filter_nil,
      List.filterMap_cons, List.range_succ, List.find?]
  · norm_num +decide [calculateAlerts, applyByUF, sortedMerged, mergedRows, groupSize, groupKeys,
      countKey, lookupCount, ufKeys, rollingAlerts, mkRow, percentsOf, rollingMean,
      rollingVar, windowObs, windowSlice, centerOffset, alertAt, sampleMean, sampleVar,
      dfMixed, recKey, isPhenoWild, isTestedWild, List.insertionSort, List.orderedInsert,
      List.countP_cons, List.countP_nil, List.filter_cons, List.filter_nil,
      List.filterMap_cons, List.range_succ, List.find?]

/-- Claim C7 (amended): the two phenotypes are computed with different
denominators, so their percentages need not sum to 100 in general; they
sum to exactly 100 at every bucket whose records realize the exclusive
partition — every vancomycin-tested record of the bucket is also
teicoplanin-conclusive, and every vancomycin-S record is
teicoplanin-S. -/
theorem C7_partition_sum (df : List Record) (w : Nat) (z : ℚ)
    (rows1 rows2 : List Row) (row1 row2 : Row) (k : Nat × Nat)
    (hok1 : calculateAlerts df "ERV" w z = Except.ok rows1)
    (hok2 : calculateAlerts df "Wild" w z = Except.ok rows2)
    (h1 : row1 ∈ rows1) (h2 : row2 ∈ rows2)
    (hk1 : (row1.week, row1.uf) = k) (hk2 : (row2.week, row2.uf) = k)
    (hpart : ∀ r ∈ df, recKey r = k → isTestedERV r = true →
      isTestedWild r = true ∧ (r.vanco = Outcome.S → r.teico = Outcome.S)) :
    ∃ p1 p2 : ℚ, row1.percent = some p1 ∧ row2.percent = some p2 ∧ p1 + p2 = 100 := by
  have hrows1 : rows1 = applyByUF w z (sortedMerged df isPhenoERV isTestedERV) := by
    unfold calculateAlerts at hok1
    simp at hok1
    exact hok1.symm
  have hrows2 : rows2 = applyByUF w z (sortedMerged df isPhenoWild isTestedWild) := by
    unfold calculateAlerts at hok2
    simp at hok2
    exact hok2.symm
  subst hrows1 hrows2
  rcases output_row_spec w z df isPhenoERV isTestedERV row1 phenoERV_tested h1 with
    ⟨k1, hk1mem, hw1, hu1, _, _, hp1⟩
  rcases output_row_spec w z df isPhenoWild isTestedWild row2 phenoWild_tested h2 with
    ⟨k2, hk2mem, hw2, hu2, _, _, hp2⟩
  have hk1eq : k1 = k := by
    rw [← hk1, hw1, hu1]
  have hk2eq : k2 = k := by
    rw [← hk2, hw2, hu2]
  rw [hk1eq] at hk1mem hp1
  rw [hk2eq] at hk2mem hp2
  set nE := countKey (df.filter isPhenoERV) k with hnE
  set dE := countKey (df.filter isTestedERV) k with hdE
  set nW := countKey (df.filter isPhenoWild) k with hnW
  set dW := countKey (df.filter isTestedWild) k with hdW
  -- the two denominators coincide on a partition bucket
  have hdeq : dW = dE := by
    rw [hdW, hdE]
    unfold countKey
    rw [List.countP_filter, List.countP_filter]
    apply List.countP_congr
    intro r hr
    by_cases hkr : recKey r = k
    · constructor
      · rintro h
        rw [Bool.and_eq_true] at h ⊢
        exact ⟨h.1, testedWild_testedERV r h.2⟩
      · rintro h
        rw [Bool.and_eq_true] at h ⊢
        exact ⟨h.1, (hpart r hr hkr h.2).1⟩
    · have : (recKey r == k) = false := by simp [hkr]
      simp [this]
  -- the two numerators partition the shared denominator
  have hsum : nE + nW = dE := by
    rw [hnE, hnW, hdE]
    unfold countKey
    rw [List.countP_filter, List.countP_filter, List.countP_filter]
    have hor : List.countP (fun r => (recKey r == k) && isTestedERV r) df =
        List.countP (fun r =>
          ((recKey r == k) && isPhenoERV r) || ((recKey r == k) && isPhenoWild r)) df := by
      apply List.countP_congr
      intro r hr
      by_cases hkr : recKey r = k
      · have hbeq : (recKey r == k) = true := by simp [hkr]
        rw [hbeq]
        simp only [Bool.true_and]
        rw [Bool.or_eq_true]
        constructor
        · intro ht
          unfold isTestedERV at ht
          rw [Bool.or_eq_true] at ht
          rcases ht with hR | hS
          · left
            unfold isPhenoERV
            exact hR
          · right
            unfold isPhenoWild
            rw [Bool.and_eq_true]
            have hvS : r.vanco = Outcome.S := by
              have := beq_iff_eq.1 hS
              exact this
            have htS := (hpart r hr hkr (by unfold isTestedERV; rw [hS]; simp)).2 hvS
            constructor
            · exact hS
            · simp [htS]
        · intro h
          unfold isTestedERV
          rcases h with hE | hW
          · unfold isPhenoERV at hE
            rw [hE]
            rfl
          · unfold isPhenoWild at hW
            rw [Bool.and_eq_true] at hW
            rw [hW.1]
            simp
      · have : (recKey r == k) = false := by simp [hkr]
        simp [this]
    rw [hor]
    symm
    apply countP_or_disjoint
    intro r _ h
    rcases h with ⟨hE, hW⟩
    rw [Bool.and_eq_true] at hE hW
    unfold isPhenoERV at hE
    unfold isPhenoWild at hW
    rw [Bool.and_eq_true] at hW
    have h1 := beq_iff_eq.1 hE.2
    have h3 := beq_iff_eq.1 hW.2.1
    rw [h1] at h3
    cases h3
  have hnE1 : 1 ≤ nE := countKey_pos _ k hk1mem
  have hdE1 : 1 ≤ dE := by omega
  have hdEq : (0:ℚ) < (dE:ℚ) := by exact_mod_cast hdE1
  refine ⟨(nE:ℚ) / (dE:ℚ) * 100, (nW:ℚ) / (dW:ℚ) * 100, hp1, hp2, ?_⟩
  rw [hdeq]
  have hcast : (nE:ℚ) + (nW:ℚ) = (dE:ℚ) := by exact_mod_cast hsum
  field_simp
  linarith [hcast]

set_option maxHeartbeats 8000000 in
/-- Witness for the amended C7: on the two-record partition bucket both
percentages are 50 and they sum to 100. -/
theorem C7_witness :
    ∃ p1 p2 : ℚ,
      ({ week := 1, uf := 0, nb := 1, total := some 2, percent := some 50,
         moving_avg := none, moving_var := none, alert := false } : Row).percent = some p1 ∧
      ({ week := 1, uf := 0, nb := 1, total := some 2, percent := some 50,
         moving_avg := none, moving_var := none, alert := false } : Row).percent = some p2 ∧
      p1 + p2 = 100 :=
  C7_partition_sum dfPartition 8 (49/25)
    [{ week := 1, uf := 0, nb := 1, total := some 2, percent := some 50,
       moving_avg := none, moving_var := none, alert := false }]
    [{ week := 1, uf := 0, nb := 1, total := some 2, percent := some 50,
       moving_avg := none, moving_var := none, alert := false }]
    { week := 1, uf := 0, nb := 1, total := some 2, percent := some 50,
      moving_avg := none, moving_var := none, alert := false }
    { week := 1, uf := 0, nb := 1, total := some 2, percent := some 50,
      moving_avg := none, moving_var := none, alert := false }
    (1, 0)
    (by norm_num +decide [calculateAlerts, applyByUF, sortedMerged, mergedRows, groupSize,
      groupKeys, countKey, lookupCount, ufKeys, rollingAlerts, mkRow, percentsOf, rollingMean,
      rollingVar, windowObs, windowSlice, centerOffset, alertAt, sampleMean, sampleVar,
      dfPartition, recKey, isPhenoERV, isTestedERV, List.insertionSort, List.orderedInsert,
      List.countP_cons, List.countP_nil, List.filter_cons, List.filter_nil,
      List.filterMap_cons, List.range_succ, List.find?])
    (by norm_num +decide [calculateAlerts, applyByUF, sortedMerged, mergedRows, groupSize,
      groupKeys, countKey, lookupCount, ufKeys, rollingAlerts, mkRow, percentsOf, rollingMean,
      rollingVar, windowObs, windowSlice, centerOffset, alertAt, sampleMean, sampleVar,
      dfPartition, recKey, isPhenoWild, isTestedWild, List.insertionSort, List.orderedInsert,
      List.countP_cons, List.countP_nil, List.filter_cons, List.filter_nil,
      List.filterMap_cons, List.range_succ, List.find?])
    (List.mem_singleton.2 rfl) (List.mem_singleton.2 rfl) rfl rfl (by decide)

/-! ### Claim C9: per-unit independence of the rolling computations -/

theorem sorted_sortedMerged (rs : List Record) (pheno tested : Record → Bool) :
    List.Sorted rowLe (sortedMerged rs pheno tested) :=
  List.sorted_insertionSort rowLe (mergedRows rs pheno tested)

theorem mergedRows_key_pairwise (rs : List Record) (pheno tested : Record → Bool) :
    List.Pairwise (fun a b : MergedRow => (a.week, a.uf) ≠ (b.week, b.uf))
      (mergedRows rs pheno tested) := by
  have h := nodup_groupKeys (rs.filter pheno)
  rw [← mergedRows_map_key rs pheno tested] at h
  exact List.pairwise_map.1 h

/-- Two lists of merged rows that are permutations of each other, both
sorted by `(UF, week)`, with pairwise distinct keys, are equal: the
sorted merged table is determined by its contents. -/
theorem eq_of_perm_sorted_keys (l1 l2 : List MergedRow)
    (hp : l1.Perm l2) (hs1 : List.Sorted rowLe l1) (hs2 : List.Sorted rowLe l2)
    (hnd : List.Pairwise (fun a b : MergedRow => (a.week, a.uf) ≠ (b.week, b.uf)) l1) :
    l1 = l2 := by
  have hnd2 := (hp.pairwise_iff (fun hab he => hab he.symm)).1 hnd
  have hstrict : ∀ {a b : MergedRow},
      (rowLe a b ∧ (a.week, a.uf) ≠ (b.week, b.uf)) → rowLt a b := by
    intro a b h
    obtain ⟨hle, hne⟩ := h
    have hne2 : ¬(a.week = b.week ∧ a.uf = b.uf) := by
      intro hh
      exact hne (by rw [hh.1, hh.2])
    unfold rowLe at hle
    unfold rowLt
    omega
  have hlt1 : List.Sorted rowLt l1 := List.Pairwise.imp hstrict (hs1.and hnd)
  have hlt2 : List.Sorted rowLt l2 := List.Pairwise.imp hstrict (hs2.and hnd2)
  exact List.eq_of_perm_of_sorted hp hlt1 hlt2

/-- Counting records at a key `(wk, u)` sees only records of unit `u`:
restricting the record set to unit `u` first changes nothing. -/
theorem countKey_filter_uf (rs : List Record) (p : Record → Bool) (u : Nat)
    (k : Nat × Nat) (hk : k.2 = u) :
    countKey ((rs.filter (fun r => r.uf == u)).filter p) k = countKey (rs.filter p) k := by
  unfold countKey
  rw [List.countP_filter, List.countP_filter, List.countP_filter]
  apply List.countP_congr
  intro r _
  by_cases hkr : recKey r = k
  · have hu : (r.uf == u) = true := by
      have h2 : r.uf = k.2 := by rw [← hkr]; rfl
      simp [h2, hk]
    simp [hkr, hu]
  · have hfalse : (recKey r == k) = false := by simp [hkr]
    simp [hfalse]

theorem groupKeys_filter_uf_mem (rs : List Record) (p : Record → Bool) (u : Nat)
    (k : Nat × Nat) :
    k ∈ groupKeys ((rs.filter (fun r => r.uf == u)).filter p) ↔
      k ∈ groupKeys (rs.filter p) ∧ k.2 = u := by
  rw [mem_groupKeys, mem_groupKeys]
  constructor
  · rintro ⟨r, hr, hk⟩
    rcases List.mem_filter.1 hr with ⟨hru, hp⟩
    rcases List.mem_filter.1 hru with ⟨hrs, hu⟩
    refine ⟨⟨r, List.mem_filter.2 ⟨hrs, hp⟩, hk⟩, ?_⟩
    rw [← hk]
    exact beq_iff_eq.1 hu
  · rintro ⟨⟨r, hr, hk⟩, hku⟩
    rcases List.mem_filter.1 hr with ⟨hrs, hp⟩
    have hu : (r.uf == u) = true := by
      have h2 : r.uf = k.2 := by rw [← hk]; rfl
      simp [h2, hku]
    exact ⟨r, List.mem_filter.2 ⟨List.mem_filter.2 ⟨hrs, hu⟩, hp⟩, hk⟩

theorem lookupCount_filter_uf (rs : List Record) (tested : Record → Bool) (u : Nat)
    (k : Nat × Nat) (hk : k.2 = u) :
    lookupCount (groupSize ((rs.filter (fun r => r.uf == u)).filter tested)) k =
      lookupCount (groupSize (rs.filter tested)) k := by
  rw [lookupCount_groupSize, lookupCount_groupSize]
  by_cases hmem : k ∈ groupKeys (rs.filter tested)
  · rw [if_pos hmem, if_pos ((groupKeys_filter_uf_mem rs tested u k).2 ⟨hmem, hk⟩),
      countKey_filter_uf rs tested u k hk]
  · rw [if_neg hmem, if_neg (fun h => hmem ((groupKeys_filter_uf_mem rs tested u k).1 h).1)]

theorem mergedRowFor_filter_uf (rs : List Record) (pheno tested : Record → Bool) (u : Nat)
    (k : Nat × Nat) (hk : k.2 = u) :
    mergedRowFor (rs.filter (fun r => r.uf == u)) pheno tested k =
      mergedRowFor rs pheno tested k := by
  unfold mergedRowFor
  rw [lookupCount_filter_uf rs tested u k hk, countKey_filter_uf rs pheno u k hk]

theorem mergedRows_filter_uf_perm (rs : List Record) (pheno tested : Record → Bool)
    (u : Nat) :
    ((mergedRows rs pheno tested).filter (fun m => m.uf == u)).Perm
      (mergedRows (rs.filter (fun r => r.uf == u)) pheno tested) := by
  rw [mergedRows_eq_map, mergedRows_eq_map, List.filter_map]
  have hpred : ((fun m : MergedRow => m.uf == u) ∘ mergedRowFor rs pheno tested) =
      fun k : Nat × Nat => k.2 == u := rfl
  rw [hpred]
  have hmapeq : ((groupKeys (rs.filter pheno)).filter (fun k => k.2 == u)).map
        (mergedRowFor rs pheno tested) =
      ((groupKeys (rs.filter pheno)).filter (fun k => k.2 == u)).map
        (mergedRowFor (rs.filter (fun r => r.uf == u)) pheno tested) := by
    apply List.map_congr_left
    intro k hkmem
    have hk2 : k.2 = u := beq_iff_eq.1 (List.mem_filter.1 hkmem).2
    exact (mergedRowFor_filter_uf rs pheno tested u k hk2).symm
  rw [hmapeq]
  apply List.Perm.map
  apply (List.perm_ext_iff_of_nodup (List.Nodup.filter _ (nodup_groupKeys _))
    (nodup_groupKeys _)).2
  intro k
  rw [List.mem_filter, groupKeys_filter_uf_mem rs pheno u k]
  constructor
  · rintro ⟨h1, h2⟩
    exact ⟨h1, beq_iff_eq.1 h2⟩
  · rintro ⟨h1, h2⟩
    exact ⟨h1, by simp [h2]⟩

/-- Restricting the sorted merged table to one unit is the same as
building it from that unit's records only. -/
theorem sortedMerged_filter_uf (rs : List Record) (pheno tested : Record → Bool)
    (u : Nat) :
    (sortedMerged rs pheno tested).filter (fun m => m.uf == u) =
      sortedMerged (rs.filter (fun r => r.uf == u)) pheno tested := by
  apply eq_of_perm_sorted_keys
  · exact ((sortedMerged_perm rs pheno tested).filter _).trans
      ((mergedRows_filter_uf_perm rs pheno tested u).trans
        (sortedMerged_perm (rs.filter (fun r => r.uf == u)) pheno tested).symm)
  · exact List.Sorted.filter _ (sorted_sortedMerged rs pheno tested)
  · exact sorted_sortedMerged _ pheno tested
  · have hpw := ((sortedMerged_perm rs pheno tested).pairwise_iff
      (fun hab he => hab he.symm)).2 (mergedRows_key_pairwise rs pheno tested)
    exact List.Pairwise.filter _ hpw

theorem rollingAlerts_uf (w : Nat) (z : ℚ) (g : List MergedRow) (u : Nat)
    (hg : ∀ m ∈ g, m.uf = u) (row : Row) (hrow : row ∈ rollingAlerts w z g) :
    row.uf = u := by
  rcases (mem_rollingAlerts w z g row).1 hrow with ⟨i, hi, heq⟩
  rw [← heq]
  have hmem : g.getD i default ∈ g := by
    rw [List.getD_eq_getElem _ _ hi]
    exact List.getElem_mem hi
  exact hg _ hmem

theorem flatMap_eq_nil_of_all {β : Type} (keys : List Nat) (f : Nat → List β)
    (h : ∀ x ∈ keys, f x = []) : keys.flatMap f = [] := by
  induction keys with
  | nil => rfl
  | cons b t ih =>
    rw [List.flatMap_cons, h b (by simp), List.nil_append]
    exact ih (fun x hx => h x (by simp [hx]))

theorem flatMap_single {β : Type} (keys : List Nat) (f : Nat → List β) (u : Nat)
    (hnd : keys.Nodup) (hnil : ∀ a ∈ keys, a ≠ u → f a = []) :
    keys.flatMap f = if u ∈ keys then f u else [] := by
  induction keys with
  | nil => simp
  | cons a ks ih =>
    rw [List.flatMap_cons]
    rcases List.nodup_cons.1 hnd with ⟨hna, hndk⟩
    by_cases hau : a = u
    · subst hau
      rw [if_pos (by simp)]
      have hnil2 : ks.flatMap f = [] :=
        flatMap_eq_nil_of_all ks f
          (fun x hx => hnil x (by simp [hx]) (fun he => hna (he ▸ hx)))
      rw [hnil2, List.append_nil]
    · rw [hnil a (by simp) hau, List.nil_append,
        ih hndk (fun x hx hxu => hnil x (by simp [hx]) hxu)]
      by_cases hu : u ∈ ks
      · rw [if_pos hu, if_pos (by simp [hu])]
      · rw [if_neg hu, if_neg (by
          intro hmem
          rcases List.mem_cons.1 hmem with h | h
          · exact hau h.symm
          · exact hu h)]

/-- Restricting the whole grouped-apply output to one unit's rows gives
exactly the rolling pass over that unit's merged rows. -/
theorem applyByUF_filter (w : Nat) (z : ℚ) (g : List MergedRow) (u : Nat) :
    (applyByUF w z g).filter (fun row => row.uf == u) =
      rollingAlerts w z (g.filter (fun m => m.uf == u)) := by
  unfold applyByUF
  rw [List.filter_flatMap]
  have hcase : ∀ a ∈ ufKeys g, a ≠ u →
      (rollingAlerts w z (g.filter (fun m => m.uf == a))).filter
        (fun row => row.uf == u) = [] := by
    intro a _ hau
    apply List.filter_eq_nil_iff.2
    intro row hrow
    have huf := rollingAlerts_uf w z _ a
      (fun m hm => beq_iff_eq.1 (List.mem_filter.1 hm).2) row hrow
    rw [huf]
    simp [hau]
  have hflat := flatMap_single (ufKeys g)
      (fun a => (rollingAlerts w z (g.filter (fun m => m.uf == a))).filter
        (fun row => row.uf == u)) u (nodup_ufKeys g) hcase
  rw [hflat]
  by_cases hu : u ∈ ufKeys g
  · rw [if_pos hu]
    apply List.filter_eq_self.2
    intro row hrow
    have huf := rollingAlerts_uf w z _ u
      (fun m hm => beq_iff_eq.1 (List.mem_filter.1 hm).2) row hrow
    simp [huf]
  · rw [if_neg hu]
    have hnil : g.filter (fun m => m.uf == u) = [] := by
      apply List.filter_eq_nil_iff.2
      intro m hm hbeq
      exact hu ((mem_ufKeys g u).2 ⟨m, hm, beq_iff_eq.1 hbeq⟩)
    rw [hnil]
    rfl

/-- One unit's slice of the pipeline output is computed from that
unit's records only. -/
theorem pipeline_filter_uf (w : Nat) (z : ℚ) (rs : List Record)
    (pheno tested : Record → Bool) (u : Nat) :
    (applyByUF w z (sortedMerged rs pheno tested)).filter (fun row => row.uf == u) =
      rollingAlerts w z (sortedMerged (rs.filter (fun r => r.uf == u)) pheno tested) := by
  rw [applyByUF_filter, sortedMerged_filter_uf]

/-- Claim C9: the per-`UF` rolling computations are independent — two
record sets holding exactly the same records for a unit `u` produce
identical output rows (all columns, alert included) for `u`; records of
other units never influence `u`'s statistics. -/
theorem C9_per_unit_independence (df1 df2 : List Record) (s : String) (w : Nat) (z : ℚ)
    (u : Nat) (rows1 rows2 : List Row)
    (heq : df1.filter (fun r => r.uf == u) = df2.filter (fun r => r.uf == u))
    (hok1 : calculateAlerts df1 s w z = Except.ok rows1)
    (hok2 : calculateAlerts df2 s w z = Except.ok rows2) :
    rows1.filter (fun row => row.uf == u) = rows2.filter (fun row => row.uf == u) := by
  unfold calculateAlerts at hok1 hok2
  split at hok1
  · rename_i hc
    rw [if_pos hc] at hok2
    injection hok1 with h1
    injection hok2 with h2
    subst h1 h2
    rw [pipeline_filter_uf, pipeline_filter_uf, heq]
  · split at hok1
    · rename_i hc1 hc2
      rw [if_neg hc1, if_pos hc2] at hok2
      injection hok1 with h1
      injection hok2 with h2
      subst h1 h2
      rw [pipeline_filter_uf, pipeline_filter_uf, heq]
    · cases hok1

set_option maxHeartbeats 4000000 in
/-- Witness for C9: adding a record of another unit (unit 1) to the
record set does not change unit 0's output row. -/
theorem C9_witness :
    (([{ week := 1, uf := 0, nb := 1, total := some 1, percent := some 100,
         moving_avg := none, moving_var := none, alert := false }] : List Row).filter
        (fun row => row.uf == 0)) =
      (([{ week := 1, uf := 0, nb := 1, total := some 1, percent := some 100,
           moving_avg := none, moving_var := none, alert := false }] : List Row).filter
        (fun row => row.uf == 0)) :=
  C9_per_unit_independence dfTwoUF dfOneR "ERV" 8 (49/25) 0
    [{ week := 1, uf := 0, nb := 1, total := some 1, percent := some 100,
       moving_avg := none, moving_var := none, alert := false }]
    [{ week := 1, uf := 0, nb := 1, total := some 1, percent := some 100,
       moving_avg := none, moving_var := none, alert := false }]
    (by decide)
    (by norm_num +decide [calculateAlerts, applyByUF, sortedMerged, mergedRows, groupSize,
      groupKeys, countKey, lookupCount, ufKeys, rollingAlerts, mkRow, percentsOf, rollingMean,
      rollingVar, windowObs, windowSlice, centerOffset, alertAt, sampleMean, sampleVar,
      dfTwoUF, recKey, isPhenoERV, isTestedERV, List.insertionSort, List.orderedInsert,
      List.countP_cons, List.countP_nil, List.filter_cons, List.filter_nil,
      List.filterMap_cons, List.range_succ, List.find?])
    (by norm_num +decide [calculateAlerts, applyByUF, sortedMerged, mergedRows, groupSize,
      groupKeys, countKey, lookupCount, ufKeys, rollingAlerts, mkRow, percentsOf, rollingMean,
      rollingVar, windowObs, windowSlice, centerOffset, alertAt, sampleMean, sampleVar,
      dfOneR, recKey, isPhenoERV, isTestedERV, List.insertionSort, List.orderedInsert,
      List.countP_cons, List.countP_nil, List.filter_cons, List.filter_nil,
      List.filterMap_cons, List.range_succ, List.find?])

end Entero
